import Mathlib

/-!
Verification of the Wabot Discord bot's model-routing and conversation-state
policy.  The definitions below are shallow embeddings of the TypeScript
sources: `conversation.service.ts` (history buffer), `gemini.service.ts`
(model router, prompt assembly, reply post-processing, memory extraction
parsing) and `userProfile.service.ts` (profile store).  JavaScript strings
are modelled as Lean `String`/`List Char`; JS `Map`/objects keyed by strings
are modelled as functions to `Option` or association lists; truthiness of a
string-valued lookup is `some v` with `v ≠ ""`.
-/

namespace Wabot

/-! ### JavaScript string primitives -/

/-- JS whitespace test used by `String.prototype.trim` (ASCII fragment). -/
def isWS (c : Char) : Bool := c.isWhitespace

/-- `String.prototype.trim` on a character list. -/
def trimL (l : List Char) : List Char :=
  ((l.dropWhile isWS).reverse.dropWhile isWS).reverse

/-- `String.prototype.trim`. -/
def trimS (s : String) : String := String.mk (trimL s.toList)

/-- `String.prototype.includes` (substring containment) on character lists. -/
def containsSubL : List Char → List Char → Bool
  | hay, needle =>
    needle.isPrefixOf hay ||
      match hay with
      | [] => false
      | _ :: t => containsSubL t needle

/-- `hay.includes(needle)` for strings. -/
def containsSub (hay needle : String) : Bool := containsSubL hay.toList needle.toList

/-- `String.prototype.toLowerCase` (ASCII-faithful). -/
def toLowerStr (s : String) : String := String.mk (s.toList.map Char.toLower)

/-! ### History Buffer — `src/services/conversation.service.ts` -/

/-- `Content` of `@google/genai` as the bot uses it: a role and text parts. -/
structure Content where
  role : String
  parts : List String
deriving DecidableEq, Repr

/-- `config.MAX_HISTORY_MESSAGES` from `src/config.ts`. -/
def MAX_HISTORY_MESSAGES : Nat := 10

/-- The `conversationHistories : Map<string, Content[]>` module state. -/
def Store : Type := String → Option (List Content)

/-- The initial empty map. -/
def emptyStore : Store := fun _ => none

/-- The `newContent` record built by `addMessageToHistory`. -/
def newContent (role text : String) : Content :=
  { role := role, parts := [text] }

/-- `getHistory`: `conversationHistories.get(channelId) || []`. -/
def getHistory (s : Store) (channelId : String) : List Content :=
  (s channelId).getD []

/-- `addMessageToHistory`: push `{role, parts:[{text}]}` onto the channel's
list (creating it if absent), then
`if (history.length > MAX_HISTORY_MESSAGES * 2) history.splice(0, history.length - MAX_HISTORY_MESSAGES * 2)`.
The source's has/set-empty-then-get sequence collapses to `getHistory`;
`splice(0, n)` removes the first `n` entries, i.e. `List.drop n`. -/
def addMessageToHistory (s : Store) (channelId role text : String) : Store :=
  let history := getHistory s channelId
  let newContent : Content := newContent role text
  let history2 := history ++ [newContent]
  let history3 :=
    if history2.length > MAX_HISTORY_MESSAGES * 2 then
      history2.drop (history2.length - MAX_HISTORY_MESSAGES * 2)
    else history2
  fun k => if k = channelId then some history3 else s k

/-- A whole sequence of `addMessageToHistory` calls, oldest first. -/
def applyCalls (calls : List (String × String × String)) (s : Store) : Store :=
  calls.foldl (fun st c => addMessageToHistory st c.1 c.2.1 c.2.2) s

/-- The concrete call sequence used in witnesses: `n` alternating turns in
channel `"c"`. -/
def altCalls (n : Nat) : List (String × String × String) :=
  (List.range n).map (fun i => ("c", if i % 2 = 0 then "user" else "model", "m"))

theorem getHistory_addMessage_self (s : Store) (k role text : String) :
    getHistory (addMessageToHistory s k role text) k =
      (if (getHistory s k ++ [newContent role text]).length >
            MAX_HISTORY_MESSAGES * 2 then
        (getHistory s k ++ [newContent role text]).drop
          ((getHistory s k ++ [newContent role text]).length -
            MAX_HISTORY_MESSAGES * 2)
      else getHistory s k ++ [newContent role text]) := by
  simp [addMessageToHistory, getHistory]

theorem getHistory_addMessage_other (s : Store) (k k' role text : String)
    (h : k' ≠ k) :
    getHistory (addMessageToHistory s k role text) k' = getHistory s k' := by
  simp [addMessageToHistory, getHistory, h]

theorem length_getHistory_addMessage_le (s : Store) (k c role text : String)
    (h : (getHistory s k).length ≤ MAX_HISTORY_MESSAGES * 2) :
    (getHistory (addMessageToHistory s c role text) k).length ≤
      MAX_HISTORY_MESSAGES * 2 := by
  by_cases hk : k = c
  · subst hk
    rw [getHistory_addMessage_self]
    split
    · simp only [List.length_drop]
      omega
    · simp only [List.length_append, List.length_singleton] at *
      omega
  · rw [getHistory_addMessage_other s c k role text hk]
    exact h

theorem applyCalls_length_le (calls : List (String × String × String))
    (s : Store) (hs : ∀ k, (getHistory s k).length ≤ MAX_HISTORY_MESSAGES * 2) :
    ∀ k, (getHistory (applyCalls calls s) k).length ≤ MAX_HISTORY_MESSAGES * 2 := by
  induction calls generalizing s with
  | nil => exact hs
  | cons c rest ih =>
    intro k
    exact ih (addMessageToHistory s c.1 c.2.1 c.2.2)
      (fun k' => length_getHistory_addMessage_le s k' c.1 c.2.1 c.2.2 (hs k')) k

/-- C1 (amended): for every sequence of `addMessageToHistory` calls starting
from the empty store, the stored history of every channel never exceeds
`MAX_HISTORY_MESSAGES * 2 = 20` entries; and when a channel is at capacity,
the next append evicts exactly **one** entry from the front (the oldest),
so the retained list is the previous list minus its head plus the new turn. -/
theorem history_window_bound_and_single_eviction :
    (∀ (calls : List (String × String × String)) (k : String),
       (getHistory (applyCalls calls emptyStore) k).length ≤
         MAX_HISTORY_MESSAGES * 2) ∧
    (∀ (s : Store) (k role text : String),
       (getHistory s k).length = MAX_HISTORY_MESSAGES * 2 →
       getHistory (addMessageToHistory s k role text) k =
         (getHistory s k).drop 1 ++ [newContent role text]) := by
  constructor
  · intro calls k
    exact applyCalls_length_le calls emptyStore
      (fun _ => by simp [getHistory, emptyStore]) k
  · intro s k role text hlen
    rw [getHistory_addMessage_self]
    have hgt : (getHistory s k ++ [newContent role text]).length >
        MAX_HISTORY_MESSAGES * 2 := by
      simp [List.length_append, hlen]
    rw [if_pos hgt]
    have hsub : (getHistory s k ++ [newContent role text]).length -
        MAX_HISTORY_MESSAGES * 2 = 1 := by
      simp [List.length_append, hlen]
    rw [hsub, List.drop_append_of_le_length (by rw [hlen]; norm_num [MAX_HISTORY_MESSAGES])]

/-- Witness for the amended C1 theorem at a concrete store: after 20
alternating appends the channel is at capacity, and the 21st append drops
exactly the head. -/
theorem history_window_bound_and_single_eviction_witness :
    getHistory (addMessageToHistory (applyCalls (altCalls 20) emptyStore) "c" "user" "q") "c" =
      (getHistory (applyCalls (altCalls 20) emptyStore) "c").drop 1 ++
        [newContent "user" "q"] :=
  history_window_bound_and_single_eviction.2
    (applyCalls (altCalls 20) emptyStore) "c" "user" "q" (by decide)

/-- C1 counterexample: a concrete run refuting the claim as stated.  After
20 single-message appends the 21st append evicts exactly one entry — an odd
number — from the front, and the head of the retained list is the second
entry of the old list (a model turn), i.e. a dangling half of a
(user, model) pair. -/
theorem history_eviction_not_even_counterexample :
    (getHistory (applyCalls (altCalls 20) emptyStore) "c").length =
        MAX_HISTORY_MESSAGES * 2 ∧
    getHistory (applyCalls (altCalls 21) emptyStore) "c" =
      (getHistory (applyCalls (altCalls 20) emptyStore) "c").drop 1 ++
        [newContent "user" "m"] ∧
    ¬ (2 ∣ ((getHistory (applyCalls (altCalls 20) emptyStore) "c").length + 1 -
            (getHistory (applyCalls (altCalls 21) emptyStore) "c").length)) ∧
    (getHistory (applyCalls (altCalls 21) emptyStore) "c").head? =
      some (newContent "model" "m") := by
  refine ⟨by decide, by decide, by decide, by decide⟩

/-! ### Model Router — exported `getModelForQuery` of
`src/services/gemini.service.ts` -/

/-- `config.GEMINI_MODELS.flash`. -/
def GEMINI_MODELS_flash : String := "gemini-2.5-flash"

/-- `config.GEMINI_MODELS.pro`. -/
def GEMINI_MODELS_pro : String := "gemini-2.5-pro"

/-- The `complexityIndicators` array of `getModelForQuery`. -/
def complexityIndicators : List String :=
  ["analyze", "research", "compare", "explain in detail", "comprehensive",
   "what are the latest", "current events", "recent news", "up to date",
   "search for", "find information", "look up", "investigate",
   "tell me about recent", "what happened", "latest updates"]

/-- `complexityIndicators.some(indicator => queryLower.includes(indicator))`. -/
def hasComplexityIndicator (query : String) : Bool :=
  complexityIndicators.any (fun indicator => containsSub (toLowerStr query) indicator)

/-- Head of the rest is a non-whitespace character (the `[^\s]+` part of the
URL regex needs at least one such character). -/
def nonSpaceHead : List Char → Bool
  | [] => false
  | c :: _ => !c.isWhitespace

/-- The URL regex `/(https?:\/\/[^\s]+)/` matches at the start of `l`. -/
def urlAt (l : List Char) : Bool :=
  ("http://".toList.isPrefixOf l && nonSpaceHead (l.drop 7)) ||
    ("https://".toList.isPrefixOf l && nonSpaceHead (l.drop 8))

/-- The URL regex matches somewhere in `l`. -/
def urlTestL : List Char → Bool
  | [] => false
  | c :: t => urlAt (c :: t) || urlTestL t

/-- `isUrlProvided = /(https?:\/\/[^\s]+)/.test(query)`. -/
def isUrlProvided (query : String) : Bool := urlTestL query.toList

/-- `isLongQuery = query.length > 150`. -/
def isLongQuery (query : String) : Bool := query.length > 150

/-- JS `\w` word character `[A-Za-z0-9_]` (for the `\b` word boundary). -/
def isWordChar (c : Char) : Bool := c.isAlphanum || c == '_'

/-- The question words of the regex `/\b(who|what|when|where|why|how)\b/i`. -/
def questionWords : List String := ["who", "what", "when", "where", "why", "how"]

/-- The regex word `w` matches at the head of `l`, with `prev` the character
just before this position (`none` at the start of the string): `w` is a
prefix of `l` and both sides sit on a `\b` word boundary. -/
def wordAt (prev : Option Char) (l : List Char) (w : String) : Bool :=
  w.toList.isPrefixOf l &&
    (match prev with
     | none => true
     | some c => !isWordChar c) &&
    (match l.drop w.length with
     | [] => true
     | c :: _ => !isWordChar c)

/-- Scan all positions of a string for a word-boundary match of one of the
question words. -/
def qwScan (prev : Option Char) : List Char → Bool
  | [] => questionWords.any (wordAt prev [])
  | c :: t => questionWords.any (wordAt prev (c :: t)) || qwScan (some c) t

/-- `hasQuestionWords = /\b(who|what|when|where|why|how)\b/i.test(queryLower)`. -/
def hasQuestionWords (query : String) : Bool :=
  qwScan none (toLowerStr query).toList

/-- The exported `getModelForQuery` (model router, `classify` in the spec). -/
def getModelForQuery (query : String) : String :=
  if hasComplexityIndicator query || isUrlProvided query ||
      isLongQuery query || hasQuestionWords query then
    GEMINI_MODELS_pro
  else
    GEMINI_MODELS_flash

/-- C4 (confirmed): a query at most 150 characters long, containing no
http(s) URL and no keyword from the router's fixed keyword set — the
`complexityIndicators` substrings together with the word-boundary question
words `who/what/when/where/why/how` — is routed to the flash model; in
particular the empty query is routed to flash. -/
theorem short_plain_query_routes_to_flash :
    (∀ query : String,
       isUrlProvided query = false →
       query.length ≤ 150 →
       hasComplexityIndicator query = false →
       hasQuestionWords query = false →
       getModelForQuery query = GEMINI_MODELS_flash) ∧
    getModelForQuery "" = GEMINI_MODELS_flash := by
  constructor
  · intro query hurl hlen hkw hqw
    have hlong : isLongQuery query = false := by
      simp [isLongQuery]
      omega
    simp [getModelForQuery, hurl, hkw, hqw, hlong]
  · decide

/-- Witness for C4 at the concrete query `"hi there"`. -/
theorem short_plain_query_routes_to_flash_witness :
    getModelForQuery "hi there" = GEMINI_MODELS_flash :=
  short_plain_query_routes_to_flash.1 "hi there"
    (by decide) (by decide) (by decide) (by decide)

/-- C8 (confirmed): any query in which the URL regex
`/(https?:\/\/[^\s]+)/` matches is routed to the pro model, whatever the
other rules say — the URL rule can never be overridden towards flash. -/
theorem url_query_routes_to_pro :
    ∀ query : String,
      isUrlProvided query = true → getModelForQuery query = GEMINI_MODELS_pro := by
  intro query hurl
  simp [getModelForQuery, hurl]

/-- Witness for C8 at the concrete query `"https://example.com"`. -/
theorem url_query_routes_to_pro_witness :
    getModelForQuery "https://example.com" = GEMINI_MODELS_pro :=
  url_query_routes_to_pro "https://example.com" (by decide)

/-! ### User profiles — `src/services/userProfile.service.ts`
(final variant, with `customMemory`, `automaticMemory`, `memoryEnabled`) -/

/-- `UserProfile`: optional fields of the persisted record.  `none` models a
field that is absent (`undefined`) in the JS object. -/
structure UserProfile where
  tone : Option String := none
  persona : Option String := none
  customMemory : Option (List (String × String)) := none
  automaticMemory : Option (List (String × String)) := none
  memoryEnabled : Option Bool := none
deriving DecidableEq, Repr

/-! ### Prompt Assembler — `generateResponse` of
`src/services/gemini.service.ts` (final variant) -/

/-- `config.SYSTEM_PROMPT` from `src/config.ts`: note its `role` is
literally `'user'` ("System prompts are best sent as a 'user' role message
at the start of history").  The long persona text is abridged here; only
the role takes part in the verified properties. -/
def SYSTEM_PROMPT : Content :=
  { role := "user",
    parts := ["You are Wabot, an exceptionally capable Discord assistant powered by Google\x27s Gemini models."] }

/-- The `profileText` user-role context turn's text; abridged rendering of
`JSON.stringify(userProfile.automaticMemory)` (only the containing turn's
role matters to the claims). -/
def memoryContextText (m : List (String × String)) : String :=
  "This is my user profile, use it for context: " ++
    String.intercalate ", " (m.map (fun kv => kv.1 ++ ": " ++ kv.2))

/-- The synthetic model-role acknowledgement text. -/
def ackText : String := "Got it. I\x27ll keep that in mind."

/-- The guard
`userProfile.memoryEnabled && userProfile.automaticMemory && Object.keys(userProfile.automaticMemory).length > 0`:
`memoryEnabled` truthy, `automaticMemory` present and non-empty. -/
def memoryInjectionCond (p : UserProfile) : Bool :=
  (p.memoryEnabled == some true) &&
    (match p.automaticMemory with
     | none => false
     | some m => decide (0 < m.length))

/-- The pair of synthetic turns `history.push({role:'user', ...profileText})`
and `history.push({role:'model', "Got it. ..."})`, or nothing. -/
def memoryTurns (p : UserProfile) : List Content :=
  if memoryInjectionCond p then
    [{ role := "user", parts := [memoryContextText (p.automaticMemory.getD [])] },
     { role := "model", parts := [ackText] }]
  else []

/-- The full turn sequence `generateResponse` sends for one call:
`[config.SYSTEM_PROMPT, ...conversationHistory]`, then the optional memory
pair, then the prompt as the final user turn (`chat.sendMessage(prompt)`). -/
def assembleTurns (p : UserProfile) (conversationHistory : List Content)
    (prompt : String) : List Content :=
  ([SYSTEM_PROMPT] ++ conversationHistory) ++ memoryTurns p ++
    [newContent "user" prompt]

/-- No two consecutive turns share a role. -/
def noConsecSameRole : List Content → Bool
  | a :: b :: t => (a.role != b.role) && noConsecSameRole (b :: t)
  | _ => true

/-- A concrete profile with memory enabled and a non-empty automatic map. -/
def c2profile : UserProfile :=
  { memoryEnabled := some true, automaticMemory := some [("city", "Rome")] }

/-- C2 counterexample: with memory enabled, a non-empty automatic memory map
and an empty history, the assembled sequence starts with two consecutive
`user`-role turns (the user-role system prompt followed by the user-role
profile-context turn), refuting the claimed alternation invariant. -/
theorem assembler_consecutive_user_roles_counterexample :
    noConsecSameRole (assembleTurns c2profile [] "hi") = false ∧
    (assembleTurns c2profile [] "hi").map Content.role =
      ["user", "user", "model", "user"] := by
  refine ⟨by decide, by decide⟩

/-- C2 (amended): the assembler produces exactly the system turn, the
history verbatim, the optional synthetic memory pair and the final user
query; the synthetic acknowledgement turn does preserve alternation at the
injection point — the suffix after the history (profile-context turn,
acknowledgement turn, final query) never has two consecutive turns of the
same role.  The full sequence, however, can repeat the `user` role, since
the system prompt itself carries role `user` and the history is inserted
verbatim. -/
theorem assembler_alternation_after_history :
    ∀ (p : UserProfile) (conversationHistory : List Content) (prompt : String),
      assembleTurns p conversationHistory prompt =
        [SYSTEM_PROMPT] ++ conversationHistory ++
          (memoryTurns p ++ [newContent "user" prompt]) ∧
      noConsecSameRole (memoryTurns p ++ [newContent "user" prompt]) = true := by
  intro p conversationHistory prompt
  constructor
  · simp [assembleTurns, List.append_assoc]
  · cases h : memoryInjectionCond p <;>
      simp [memoryTurns, h, noConsecSameRole, newContent]

/-! ### Profile Store operations — `src/services/userProfile.service.ts`

JS objects used as string→string tables are modelled as association lists
with unique keys; property read is `alookup`, property write is `aupsert`
(replace in place or append), `delete` is `aerase`.  The lowdb handle `db`
is `none` when `initializeUserProfileDB` never ran. -/

/-- JS property read `o[k]`. -/
def alookup {α : Type} : List (String × α) → String → Option α
  | [], _ => none
  | (k', v) :: t, k => if k' = k then some v else alookup t k

/-- JS property write `o[k] = v`: overwrite in place, else append. -/
def aupsert {α : Type} : List (String × α) → String → α → List (String × α)
  | [], k, v => [(k, v)]
  | (k', v') :: t, k, v =>
    if k' = k then (k, v) :: t else (k', v') :: aupsert t k v

/-- JS `delete o[k]`. -/
def aerase {α : Type} : List (String × α) → String → List (String × α)
  | [], _ => []
  | (k', v) :: t, k => if k' = k then aerase t k else (k', v) :: aerase t k

/-- JS truthiness of a string-valued property: present and non-empty. -/
def truthyStr : Option String → Bool
  | none => false
  | some v => v != ""

/-- The `userProfiles` table. -/
abbrev DBData := List (String × UserProfile)

/-- The module-level `db` handle; `none` = never initialized. -/
abbrev DB := Option DBData

/-- The defaults `getProfile` fills in on the profile object it returns:
`memoryEnabled ??= true`, `customMemory ??= {}`, `automaticMemory ??= {}`. -/
def defaultedProfile (p : UserProfile) : UserProfile :=
  { p with
    memoryEnabled := some (p.memoryEnabled.getD true),
    customMemory := some (p.customMemory.getD []),
    automaticMemory := some (p.automaticMemory.getD []) }

/-- The safe default returned when the db was never initialized:
`{ memoryEnabled: true, customMemory: {}, automaticMemory: {} }`. -/
def defaultProfile : UserProfile :=
  { memoryEnabled := some true, customMemory := some [],
    automaticMemory := some [] }

/-- `getProfile` with its state effect.  For a stored user the returned
object *is* the stored object, so the default-filling mutates the in-memory
table (modelled by writing the defaulted profile back); for an unseen user
the defaults are filled into a fresh `{}` and nothing is stored. -/
def getProfileSt (db : DB) (userId : String) : UserProfile × DB :=
  match db with
  | none => (defaultProfile, none)
  | some d =>
    match alookup d userId with
    | none => (defaultedProfile {}, some d)
    | some p => (defaultedProfile p, some (aupsert d userId (defaultedProfile p)))

/-- `getProfile(userId)` as observed by the caller. -/
def getProfile (db : DB) (userId : String) : UserProfile :=
  (getProfileSt db userId).1

/-- A `Partial<UserProfile>` argument of `setProfileData`: `some` fields are
the properties present on the partial object. -/
structure ProfilePatch where
  tone : Option String := none
  persona : Option String := none
  customMemory : Option (List (String × String)) := none
  automaticMemory : Option (List (String × String)) := none
  memoryEnabled : Option Bool := none
deriving DecidableEq, Repr

/-- `Object.assign(target, data)`: properties present on `data` win. -/
def assignPatch (p : UserProfile) (d : ProfilePatch) : UserProfile :=
  { tone := d.tone <|> p.tone,
    persona := d.persona <|> p.persona,
    customMemory := d.customMemory <|> p.customMemory,
    automaticMemory := d.automaticMemory <|> p.automaticMemory,
    memoryEnabled := d.memoryEnabled <|> p.memoryEnabled }

/-- `setProfileData`: no-op when the db was never initialized; otherwise
create `{}` for an unseen user and `Object.assign` the partial data. -/
def setProfileData (db : DB) (userId : String) (data : ProfilePatch) : DB :=
  match db with
  | none => none
  | some d =>
    let p := (alookup d userId).getD {}
    some (aupsert d userId (assignPatch p data))

/-- `addCustomMemory`: `profile.customMemory![key] = value` then
`setProfileData(userId, { customMemory: profile.customMemory })`. -/
def addCustomMemory (db : DB) (userId key value : String) : DB :=
  let r := getProfileSt db userId
  setProfileData r.2 userId
    { customMemory := some (aupsert (r.1.customMemory.getD []) key value) }

/-- `addAutomaticMemory`: skipped (`return`) when
`profile.customMemory && profile.customMemory[key]` is truthy — after
`getProfile` the map itself is always present, so the guard is the
truthiness of the looked-up value; otherwise writes
`{ automaticMemory: profile.automaticMemory }` with the key upserted. -/
def addAutomaticMemory (db : DB) (userId key value : String) : DB :=
  let r := getProfileSt db userId
  if truthyStr (alookup (r.1.customMemory.getD []) key) then r.2
  else
    setProfileData r.2 userId
      { automaticMemory := some (aupsert (r.1.automaticMemory.getD []) key value) }

/-- The aliasing of `getProfile`'s returned object: a mutation of it reaches
the table only when the user is actually stored there. -/
def storeIfPresent (d : DBData) (userId : String) (p : UserProfile) : DBData :=
  match alookup d userId with
  | none => d
  | some _ => aupsert d userId p

/-- `removeMemory`: search `customMemory` first, then `automaticMemory`,
delete from the first map whose entry for `key` is truthy; `db.write()`
happens only when something was found. -/
def removeMemory (db : DB) (userId key : String) : Bool × DB :=
  let r := getProfileSt db userId
  if truthyStr (alookup (r.1.customMemory.getD []) key) then
    let p' := { r.1 with customMemory := some (aerase (r.1.customMemory.getD []) key) }
    (true, r.2.map (fun d => storeIfPresent d userId p'))
  else if truthyStr (alookup (r.1.automaticMemory.getD []) key) then
    let p' := { r.1 with automaticMemory := some (aerase (r.1.automaticMemory.getD []) key) }
    (true, r.2.map (fun d => storeIfPresent d userId p'))
  else (false, r.2)

/-- `removeCustomMemory` (variant with the tone/persona/customMemory
profile): early return unless `db?.data?.userProfiles[userId]?.customMemory`
is truthy ( `{}` counts as truthy), `delete` the key, and if the map became
empty, `delete` the whole `customMemory` property. -/
def removeCustomMemory (db : DB) (userId key : String) : DB :=
  match db with
  | none => none
  | some d =>
    match alookup d userId with
    | none => some d
    | some p =>
      match p.customMemory with
      | none => some d
      | some m =>
        let m' := aerase m key
        let p' :=
          if m'.isEmpty then { p with customMemory := none }
          else { p with customMemory := some m' }
        some (aupsert d userId p')

/-- Profile stored for `userId` as seen directly in the table. -/
def dbLookup (db : DB) (userId : String) : Option UserProfile :=
  db.bind (fun d => alookup d userId)

theorem alookup_aupsert_self {α : Type} (l : List (String × α)) (k : String) (v : α) :
    alookup (aupsert l k v) k = some v := by
  induction l with
  | nil => simp [aupsert, alookup]
  | cons kv t ih =>
    by_cases h : kv.1 = k
    · simp [aupsert, alookup, h]
    · simp [aupsert, alookup, h, ih]

theorem alookup_aupsert_other {α : Type} (l : List (String × α)) (k k' : String)
    (v : α) (h : k' ≠ k) :
    alookup (aupsert l k v) k' = alookup l k' := by
  have h' : k ≠ k' := Ne.symm h
  induction l with
  | nil => simp [aupsert, alookup, h']
  | cons kv t ih =>
    by_cases hk : kv.1 = k
    · subst hk
      have h2 : kv.1 ≠ k' := h'
      simp [aupsert, alookup, h2]
    · simp [aupsert, alookup, hk, ih]

theorem alookup_aerase_self {α : Type} (l : List (String × α)) (k : String) :
    alookup (aerase l k) k = none := by
  induction l with
  | nil => simp [aerase, alookup]
  | cons kv t ih =>
    by_cases h : kv.1 = k
    · simp [aerase, h, ih]
    · simp [aerase, alookup, h, ih]

theorem alookup_aerase_other {α : Type} (l : List (String × α)) (k k' : String)
    (h : k' ≠ k) :
    alookup (aerase l k) k' = alookup l k' := by
  induction l with
  | nil => simp [aerase, alookup]
  | cons kv t ih =>
    by_cases hk : kv.1 = k
    · subst hk
      have h2 : kv.1 ≠ k' := Ne.symm h
      simp [aerase, alookup, h2, ih]
    · simp [aerase, alookup, hk, ih]

theorem defaultedProfile_idem (p : UserProfile) :
    defaultedProfile (defaultedProfile p) = defaultedProfile p := by
  simp [defaultedProfile]

theorem getProfile_some (d : DBData) (u : String) :
    getProfile (some d) u = defaultedProfile ((alookup d u).getD {}) := by
  cases h : alookup d u <;> simp [getProfile, getProfileSt, h]

/-- Reading a profile only default-fills in place: every later `getProfile`
observation is unchanged by the state effect of an earlier one. -/
theorem getProfile_getProfileSt_snd (db : DB) (u u' : String) :
    getProfile (getProfileSt db u).2 u' = getProfile db u' := by
  match db with
  | none => rfl
  | some d =>
    match h : alookup d u with
    | none => simp [getProfileSt, h]
    | some p =>
      by_cases hu : u' = u
      · subst hu
        simp [getProfileSt, h, getProfile_some, alookup_aupsert_self,
          defaultedProfile_idem]
      · simp [getProfileSt, h, getProfile_some, alookup_aupsert_other _ _ _ _ hu]

/-- C7 (confirmed): `getProfile` is total and never yields `undefined`.
When the db handle was never initialized it returns the safe default
profile `{memoryEnabled: true, customMemory: {}, automaticMemory: {}}` and
touches nothing; for an unseen user of an initialized db it synthesizes the
same defaulted profile without writing anything to storage. -/
theorem getProfile_safe_defaults :
    (∀ userId : String, getProfileSt none userId = (defaultProfile, none)) ∧
    (∀ (d : DBData) (userId : String), alookup d userId = none →
       getProfileSt (some d) userId = (defaultProfile, some d)) := by
  constructor
  · intro u
    rfl
  · intro d u h
    have hd : defaultedProfile {} = defaultProfile := by decide
    simp [getProfileSt, h, hd]

/-- A concrete stored profile for the C7 witness. -/
def c7profile : UserProfile := { tone := some "formal" }

/-- Witness for C7: the unseen user `"bob"` of a db that only knows
`"alice"` gets the default profile and the table is untouched. -/
theorem getProfile_safe_defaults_witness :
    getProfileSt (some [("alice", c7profile)]) "bob" =
      (defaultProfile, some [("alice", c7profile)]) :=
  getProfile_safe_defaults.2 [("alice", c7profile)] "bob" (by decide)

theorem getProfileSt_fst (db : DB) (u : String) :
    (getProfileSt db u).1 = getProfile db u := rfl

theorem getProfile_setProfileData_self (d : DBData) (u : String)
    (data : ProfilePatch) :
    getProfile (setProfileData (some d) u data) u =
      defaultedProfile (assignPatch ((alookup d u).getD {}) data) := by
  simp [setProfileData, getProfile_some, alookup_aupsert_self]

theorem getProfile_addCustomMemory_customMap (d : DBData) (u K v : String) :
    (getProfile (addCustomMemory (some d) u K v) u).customMemory =
      some (aupsert ((getProfile (some d) u).customMemory.getD []) K v) := by
  cases hp : alookup d u with
  | none =>
    simp [addCustomMemory, getProfileSt, hp, setProfileData, getProfile_some,
      alookup_aupsert_self, assignPatch, defaultedProfile, getProfile]
  | some p =>
    simp [addCustomMemory, getProfileSt, hp, setProfileData, getProfile_some,
      alookup_aupsert_self, assignPatch, defaultedProfile, getProfile]

/-- C3 (amended): a manual memory entry with a **non-empty** value blocks a
later automatic write to the same key: the manual entry still maps to its
value and the whole observable profile (in particular the automatic map) is
exactly what it was before the attempt.  The non-emptiness hypothesis is
forced by the JS truthiness guard `profile.customMemory[key]`. -/
theorem manual_memory_blocks_automatic (d : DBData) (u K v1 v2 : String)
    (h : v1 ≠ "") :
    alookup ((getProfile (addAutomaticMemory (addCustomMemory (some d) u K v1) u K v2) u).customMemory.getD []) K
      = some v1 ∧
    (∀ u' : String,
       getProfile (addAutomaticMemory (addCustomMemory (some d) u K v1) u K v2) u' =
         getProfile (addCustomMemory (some d) u K v1) u') := by
  have hA := getProfile_addCustomMemory_customMap d u K v1
  have hguard :
      truthyStr (alookup ((getProfile (addCustomMemory (some d) u K v1) u).customMemory.getD []) K) = true := by
    rw [hA]
    simp [alookup_aupsert_self, truthyStr, h]
  have hdb2 :
      addAutomaticMemory (addCustomMemory (some d) u K v1) u K v2 =
        (getProfileSt (addCustomMemory (some d) u K v1) u).2 := by
    simp only [addAutomaticMemory, getProfileSt_fst, hguard, if_true]
  constructor
  · rw [hdb2, getProfile_getProfileSt_snd, hA]
    simp [alookup_aupsert_self]
  · intro u'
    rw [hdb2, getProfile_getProfileSt_snd]

/-- Witness for the amended C3 theorem at concrete values. -/
theorem manual_memory_blocks_automatic_witness :
    alookup ((getProfile (addAutomaticMemory (addCustomMemory (some ([] : DBData)) "u" "city" "Rome") "u" "city" "Turin") "u").customMemory.getD []) "city"
      = some "Rome" ∧
    getProfile (addAutomaticMemory (addCustomMemory (some ([] : DBData)) "u" "city" "Rome") "u" "city" "Turin") "u" =
      getProfile (addCustomMemory (some ([] : DBData)) "u" "city" "Rome") "u" :=
  ⟨(manual_memory_blocks_automatic [] "u" "city" "Rome" "Turin" (by decide)).1,
   (manual_memory_blocks_automatic [] "u" "city" "Rome" "Turin" (by decide)).2 "u"⟩

/-- C3 counterexample: when the manual value is the empty string, the JS
truthiness guard does not fire and the automatic write goes through — the
automatic map changes, so the attempt is not a no-op as claimed. -/
theorem automatic_write_despite_manual_counterexample :
    alookup ((getProfile (addCustomMemory (some ([] : DBData)) "u" "k" "") "u").customMemory.getD []) "k" = some "" ∧
    alookup ((getProfile (addCustomMemory (some ([] : DBData)) "u" "k" "") "u").automaticMemory.getD []) "k" = none ∧
    alookup ((getProfile (addAutomaticMemory (addCustomMemory (some ([] : DBData)) "u" "k" "") "u" "k" "v2") "u").automaticMemory.getD []) "k" = some "v2" := by
  refine ⟨by decide, by decide, by decide⟩

/-- C6 (amended): `removeMemory` reports a deletion exactly when the key is
truthy (present with a non-empty value) in the manual map or, failing that,
in the automatic map; it deletes from the **first** such map only — the
manual map when its entry is truthy, else the automatic map — leaving the
other map untouched, so a key present in both maps survives in the
automatic map; and when neither entry is truthy it returns `false` and the
observable state is unchanged. -/
theorem removeMemory_first_truthy_map (db : DB) (u k : String) :
    ((removeMemory db u k).1 =
      (truthyStr (alookup ((getProfile db u).customMemory.getD []) k) ||
       truthyStr (alookup ((getProfile db u).automaticMemory.getD []) k))) ∧
    (truthyStr (alookup ((getProfile db u).customMemory.getD []) k) = true →
       (getProfile (removeMemory db u k).2 u).customMemory =
         some (aerase ((getProfile db u).customMemory.getD []) k) ∧
       (getProfile (removeMemory db u k).2 u).automaticMemory =
         (getProfile db u).automaticMemory) ∧
    (truthyStr (alookup ((getProfile db u).customMemory.getD []) k) = false →
     truthyStr (alookup ((getProfile db u).automaticMemory.getD []) k) = true →
       (getProfile (removeMemory db u k).2 u).automaticMemory =
         some (aerase ((getProfile db u).automaticMemory.getD []) k) ∧
       (getProfile (removeMemory db u k).2 u).customMemory =
         (getProfile db u).customMemory) ∧
    ((removeMemory db u k).1 = false →
       ∀ u' : String, getProfile (removeMemory db u k).2 u' = getProfile db u') := by
  match db with
  | none =>
    refine ⟨?_, ?_, ?_, ?_⟩ <;>
      simp [removeMemory, getProfileSt, getProfile, defaultProfile, alookup, truthyStr]
  | some d =>
    match hp : alookup d u with
    | none =>
      refine ⟨?_, ?_, ?_, ?_⟩ <;>
        simp [removeMemory, getProfileSt, hp, getProfile_some, getProfile,
          defaultedProfile, alookup, truthyStr]
    | some p =>
      have hg : getProfile (some d) u = defaultedProfile p := by
        simp [getProfile_some, hp]
      by_cases h1 :
        truthyStr (alookup ((defaultedProfile p).customMemory.getD []) k) = true
      · have hrm : removeMemory (some d) u k =
            (true, some (aupsert (aupsert d u (defaultedProfile p)) u
              { defaultedProfile p with
                customMemory := some (aerase ((defaultedProfile p).customMemory.getD []) k) })) := by
          simp [removeMemory, getProfileSt, hp, getProfileSt_fst, hg, h1,
            storeIfPresent, alookup_aupsert_self]
        refine ⟨?_, ?_, ?_, ?_⟩
        · simp [hrm, hg, h1]
        · intro _
          simp [hrm, hg, getProfile_some, alookup_aupsert_self, defaultedProfile]
        · intro hc _
          rw [hg] at hc
          exact absurd h1 (by simp [hc])
        · intro hfound
          simp [hrm] at hfound
      · by_cases h2 :
          truthyStr (alookup ((defaultedProfile p).automaticMemory.getD []) k) = true
        · have hrm : removeMemory (some d) u k =
              (true, some (aupsert (aupsert d u (defaultedProfile p)) u
                { defaultedProfile p with
                  automaticMemory := some (aerase ((defaultedProfile p).automaticMemory.getD []) k) })) := by
            simp [removeMemory, getProfileSt, hp, getProfileSt_fst, hg, h1, h2,
              storeIfPresent, alookup_aupsert_self]
          refine ⟨?_, ?_, ?_, ?_⟩
          · simp [hrm, hg, h1, h2]
          · intro hc
            rw [hg] at hc
            exact absurd hc h1
          · intro _ _
            simp [hrm, hg, getProfile_some, alookup_aupsert_self, defaultedProfile]
          · intro hfound
            simp [hrm] at hfound
        · have hrm : removeMemory (some d) u k =
              (false, some (aupsert d u (defaultedProfile p))) := by
            simp [removeMemory, getProfileSt, hp, getProfileSt_fst, hg, h1, h2]
          refine ⟨?_, ?_, ?_, ?_⟩
          · simp [hrm, hg, h1, h2]
          · intro hc
            rw [hg] at hc
            exact absurd hc h1
          · intro _ hc
            rw [hg] at hc
            exact absurd hc h2
          · intro _ u'
            have := getProfile_getProfileSt_snd (some d) u u'
            simp [getProfileSt, hp] at this
            simp [hrm, this]

/-- A stored profile with a manual entry, for the C6 witness. -/
def c6profile : UserProfile := { customMemory := some [("k", "v")] }

/-- Witness for the amended C6 theorem: removing a truthy manual entry
erases it from the manual map and leaves the automatic map alone. -/
theorem removeMemory_first_truthy_map_witness :
    (getProfile (removeMemory (some [("u", c6profile)]) "u" "k").2 "u").customMemory =
      some (aerase ((getProfile (some [("u", c6profile)]) "u").customMemory.getD []) "k") ∧
    (getProfile (removeMemory (some [("u", c6profile)]) "u" "k").2 "u").automaticMemory =
      (getProfile (some [("u", c6profile)]) "u").automaticMemory :=
  (removeMemory_first_truthy_map (some [("u", c6profile)]) "u" "k").2.1 (by decide)

/-- A profile holding the same key in both maps, for the C6 counterexample. -/
def c6bothProfile : UserProfile :=
  { customMemory := some [("k", "a")], automaticMemory := some [("k", "b")] }

/-- C6 counterexample: with the key in both maps, `removeMemory` returns
`true` but the key is still present (in the automatic map) in a subsequent
`getProfile`, refuting "the key is absent from the profile afterwards". -/
theorem removeMemory_key_survives_counterexample :
    (removeMemory (some [("u", c6bothProfile)]) "u" "k").1 = true ∧
    alookup ((getProfile (removeMemory (some [("u", c6bothProfile)]) "u" "k").2 "u").automaticMemory.getD []) "k" = some "b" := by
  refine ⟨by decide, by decide⟩

/-- C10 (confirmed): after `removeCustomMemory`, the stored profile of the
target user never carries an empty `customMemory` map — the property is
deleted outright when the map became empty — and the other profile fields
(tone, persona, and the fields this variant's profile type does not even
declare) are untouched. -/
theorem removeCustomMemory_cleanup_and_frame (db : DB) (u k : String) :
    (∀ p' : UserProfile, dbLookup (removeCustomMemory db u k) u = some p' →
       p'.customMemory ≠ some [] ∧
       ∃ p : UserProfile, dbLookup db u = some p ∧ p'.tone = p.tone ∧
         p'.persona = p.persona ∧ p'.automaticMemory = p.automaticMemory ∧
         p'.memoryEnabled = p.memoryEnabled) ∧
    (∀ (p : UserProfile) (m : List (String × String)),
       dbLookup db u = some p → p.customMemory = some m → aerase m k = [] →
       ∃ p' : UserProfile, dbLookup (removeCustomMemory db u k) u = some p' ∧
         p'.customMemory = none) := by
  match db with
  | none =>
    constructor
    · intro p' hp'
      simp [removeCustomMemory, dbLookup] at hp'
    · intro p m hp _ _
      simp [dbLookup] at hp
  | some d =>
    match hp : alookup d u with
    | none =>
      constructor
      · intro p' hp'
        simp [removeCustomMemory, hp, dbLookup] at hp'
      · intro p m hpl _ _
        simp [dbLookup, hp] at hpl
    | some p =>
      match hm : p.customMemory with
      | none =>
        constructor
        · intro p' hp'
          simp [removeCustomMemory, hp, hm, dbLookup] at hp'
          cases hp'
          refine ⟨by simp [hm], p, by simp [dbLookup, hp], rfl, rfl, rfl, rfl⟩
        · intro q m hq hqm _
          simp [dbLookup, hp] at hq
          cases hq
          rw [hm] at hqm
          cases hqm
      | some m =>
        have hstep : removeCustomMemory (some d) u k =
            some (aupsert d u
              (if (aerase m k).isEmpty then { p with customMemory := none }
               else { p with customMemory := some (aerase m k) })) := by
          simp [removeCustomMemory, hp, hm]
        constructor
        · intro p' hp'
          rw [hstep] at hp'
          simp [dbLookup, alookup_aupsert_self] at hp'
          match he : aerase m k with
          | [] =>
            rw [he] at hp'
            simp at hp'
            cases hp'
            refine ⟨by simp, p, by simp [dbLookup, hp], rfl, rfl, rfl, rfl⟩
          | a :: t =>
            rw [he] at hp'
            simp at hp'
            cases hp'
            refine ⟨by simp, p, by simp [dbLookup, hp], rfl, rfl, rfl, rfl⟩
        · intro q m2 hq hqm he
          simp [dbLookup, hp] at hq
          cases hq
          rw [hm] at hqm
          cases hqm
          refine ⟨{ p with customMemory := none }, ?_, rfl⟩
          rw [hstep, he]
          simp [dbLookup, alookup_aupsert_self]

/-- A stored profile whose only manual key is about to be removed, for the
C10 witness. -/
def c10profile : UserProfile :=
  { tone := some "formal", customMemory := some [("k", "v")] }

/-- Witness for C10: removing the last key deletes the whole `customMemory`
property while tone survives. -/
theorem removeCustomMemory_cleanup_and_frame_witness :
    ∃ p' : UserProfile,
      dbLookup (removeCustomMemory (some [("u", c10profile)]) "u" "k") "u" = some p' ∧
      p'.customMemory = none :=
  (removeCustomMemory_cleanup_and_frame (some [("u", c10profile)]) "u" "k").2
    c10profile [("k", "v")] (by decide) (by decide) (by decide)

/-! ### Completion Client reply post-processing

Two variants exist in the corpus.  The variant cited by the spec's
completion-client section simply returns an oversized reply unchanged
("let the smartReply handler split the message"); the summarizing variant
calls `summarizeText`, which asks the model for a summary and falls back to
`truncateAtSentence` when the summary is still too long or the call failed.
The model's summary is an arbitrary string, passed here as an explicit
`Option` argument (`none` = the summarization call threw). -/

/-- `config.MAX_RESPONSE_LENGTH` (the Discord message-size limit). -/
def MAX_RESPONSE_LENGTH : Nat := 2000

/-- `String.prototype.lastIndexOf` for a single character; `-1` if absent. -/
def jsLastIndexOf (l : List Char) (c : Char) : Int :=
  (List.range l.length).foldl
    (fun acc i => if l.get? i = some c then (i : Int) else acc) (-1)

/-- `truncateAtSentence(text, maxLength)`: keep `text` when short enough,
else cut to `maxLength` and back up to the last sentence end if it lies
past half of the window (`lastSentenceEnd > maxLength * 0.5`, rendered
exactly as `maxLength < 2 * lastSentenceEnd`), else to the last space. -/
def truncateAtSentence (text : List Char) (maxLength : Nat) : List Char :=
  if text.length ≤ maxLength then text
  else
    let truncated := text.take maxLength
    let lastSentenceEnd :=
      max (max (jsLastIndexOf truncated '.') (jsLastIndexOf truncated '!'))
        (max (jsLastIndexOf truncated '?') (jsLastIndexOf truncated '\n'))
    if (maxLength : Int) < 2 * lastSentenceEnd then
      truncated.take (lastSentenceEnd + 1).toNat
    else
      let lastSpace := jsLastIndexOf truncated ' '
      if 0 < lastSpace then truncated.take lastSpace.toNat else truncated

/-- The `'\n\n*(Response truncated)*'` suffix (24 characters). -/
def truncationNote : List Char := "\n\n*(Response truncated)*".toList

/-- `summarizeText(text)`: trim the model's summary and return it when it
fits; truncate it at `MAX_RESPONSE_LENGTH - 50` with the note otherwise;
on error, truncate the original text the same way. -/
def summarizeText (text : List Char) (modelSummary : Option (List Char)) :
    List Char :=
  match modelSummary with
  | some s =>
    let summary := trimL s
    if summary.length > MAX_RESPONSE_LENGTH then
      truncateAtSentence summary (MAX_RESPONSE_LENGTH - 50) ++ truncationNote
    else summary
  | none => truncateAtSentence text (MAX_RESPONSE_LENGTH - 50) ++ truncationNote

/-- The canned reply for empty output (apostrophes escaped). -/
def cannedEmptyReply : List Char :=
  "I\x27m sorry, I couldn\x27t generate a proper response. Could you please rephrase your question?".toList

/-- Tail of the summarizing `generateResponse` variant: canned reply when
the stream produced (almost) nothing and no tool ran; summarize when over
the limit; else return the trimmed reply.  (`!fullResponse` is subsumed by
the trimmed-length test.) -/
def generateResponseFinishSummarize (toolCallDetected : Bool)
    (fullResponse : List Char) (modelSummary : Option (List Char)) : List Char :=
  if toolCallDetected = false ∧ (trimL fullResponse).length < 5 then
    cannedEmptyReply
  else if fullResponse.length > MAX_RESPONSE_LENGTH then
    summarizeText fullResponse modelSummary
  else trimL fullResponse

/-- Tail of the non-summarizing `generateResponse` variant cited by the
claim: an oversized reply is returned unchanged for the caller to chunk. -/
def generateResponseFinishMain (toolCallDetected : Bool)
    (fullResponse : List Char) : List Char :=
  if toolCallDetected = false ∧ (trimL fullResponse).length < 1 then
    cannedEmptyReply
  else if fullResponse.length > MAX_RESPONSE_LENGTH then
    fullResponse
  else trimL fullResponse

theorem length_dropWhileP_le (p : Char → Bool) (l : List Char) :
    (l.dropWhile p).length ≤ l.length := by
  induction l with
  | nil => simp
  | cons c t ih =>
    cases h : p c
    · simp [List.dropWhile_cons, h]
    · simp only [List.dropWhile_cons, h, if_true, List.length_cons]
      exact le_trans ih (Nat.le_succ _)

theorem length_trimL_le (l : List Char) : (trimL l).length ≤ l.length := by
  calc (trimL l).length
      = ((l.dropWhile isWS).reverse.dropWhile isWS).length := by
        simp [trimL]
    _ ≤ (l.dropWhile isWS).reverse.length := length_dropWhileP_le isWS _
    _ = (l.dropWhile isWS).length := by simp
    _ ≤ l.length := length_dropWhileP_le isWS _

theorem truncateAtSentence_length_le (text : List Char) (maxLength : Nat) :
    (truncateAtSentence text maxLength).length ≤ maxLength := by
  unfold truncateAtSentence
  split
  · assumption
  · dsimp only
    split
    · simp only [List.length_take]
      omega
    · split
      · simp only [List.length_take]
        omega
      · simp only [List.length_take]
        omega

/-- C5 (amended): in the summarize-then-truncate variant the text finally
returned is always at most `MAX_RESPONSE_LENGTH = 2000` characters,
whatever the stream produced and whatever the summarizer model answered
(including summarizer failure); the non-summarizing variant cited by the
claim instead returns an oversized reply unchanged, see its
counterexample. -/
theorem summarized_reply_within_limit :
    ∀ (toolCallDetected : Bool) (fullResponse : List Char)
      (modelSummary : Option (List Char)),
      (generateResponseFinishSummarize toolCallDetected fullResponse modelSummary).length ≤
        MAX_RESPONSE_LENGTH := by
  intro tc fullResponse modelSummary
  unfold generateResponseFinishSummarize
  split
  · decide
  · split
    · unfold summarizeText
      match modelSummary with
      | some s =>
        simp only
        split
        · have h1 := truncateAtSentence_length_le (trimL s) (MAX_RESPONSE_LENGTH - 50)
          have h2 : truncationNote.length = 24 := by decide
          simp only [List.length_append, h2, MAX_RESPONSE_LENGTH] at *
          omega
        · omega
      | none =>
        have h1 := truncateAtSentence_length_le fullResponse (MAX_RESPONSE_LENGTH - 50)
        have h2 : truncationNote.length = 24 := by decide
        simp only [List.length_append, h2, MAX_RESPONSE_LENGTH] at *
        omega
    · calc (trimL fullResponse).length ≤ fullResponse.length := length_trimL_le _
        _ ≤ MAX_RESPONSE_LENGTH := by omega

theorem dropWhile_replicate_of_neg (f : Char → Bool) (c : Char)
    (h : f c = false) (n : Nat) :
    (List.replicate n c).dropWhile f = List.replicate n c := by
  cases n with
  | zero => rfl
  | succ m => simp [List.replicate_succ, List.dropWhile_cons, h]

theorem trimL_replicate (c : Char) (h : isWS c = false) (n : Nat) :
    trimL (List.replicate n c) = List.replicate n c := by
  simp [trimL, dropWhile_replicate_of_neg _ _ h, List.reverse_replicate]

/-- C5 counterexample: in the cited variant a 5000-character reply against
the 2000-character limit is returned verbatim — its length stays 5000,
exceeding the limit. -/
theorem oversized_reply_returned_unchanged_counterexample :
    generateResponseFinishMain false (List.replicate 5000 'a') =
      List.replicate 5000 'a' ∧
    MAX_RESPONSE_LENGTH <
      (generateResponseFinishMain false (List.replicate 5000 'a')).length := by
  have htrim : trimL (List.replicate 5000 'a') = List.replicate 5000 'a' :=
    trimL_replicate 'a' (by decide) 5000
  have hlen : (List.replicate 5000 'a').length = 5000 := by
    rw [List.length_replicate]
  have hc1 : ¬ ((false = false) ∧ (trimL (List.replicate 5000 'a')).length < 1) := by
    rw [htrim, hlen]
    norm_num
  have hc2 : (List.replicate 5000 'a').length > MAX_RESPONSE_LENGTH := by
    rw [hlen]
    norm_num [MAX_RESPONSE_LENGTH]
  constructor
  · unfold generateResponseFinishMain
    rw [if_neg hc1, if_pos hc2]
  · unfold generateResponseFinishMain
    rw [if_neg hc1, if_pos hc2, hlen]
    norm_num [MAX_RESPONSE_LENGTH]

/-! ### Memory extraction parsing — `extractMemoryFromConversation` of
`src/services/gemini.service.ts` (final variant)

The network call and its try/catch (which maps any thrown error to `null`)
sit outside the embedding; `extractMemoryParse` is the total parse applied
to whatever text the model returned. -/

/-- `text.split('::')`: leftmost, non-overlapping split on the two-character
separator, accumulating the current field in `acc`. -/
def splitOnDoubleColon : List Char → List Char → List (List Char)
  | acc, [] => [acc]
  | acc, [c] => [acc ++ [c]]
  | acc, c1 :: c2 :: rest =>
    if c1 = ':' ∧ c2 = ':' then acc :: splitOnDoubleColon [] rest
    else splitOnDoubleColon (acc ++ [c1]) (c2 :: rest)

/-- `text.split('::')` on strings. -/
def jsSplitOnColons (s : String) : List String :=
  (splitOnDoubleColon [] s.toList).map String.mk

/-- The strict parse of the constrained-output reply: empty text, the
`null` sentinel, a missing `::`, a split into anything but exactly three
parts, an unrecognized action, or an empty trimmed key or value all yield
`none`; only `ADD::key::value` / `UPDATE::key::value` with non-empty
trimmed fields yields a record. -/
def extractMemoryParse (raw : String) : Option (String × String) :=
  let text := trimS raw
  if text = "" ∨ text = "null" ∨ containsSub text "::" = false then none
  else
    let parts := jsSplitOnColons text
    if parts.length ≠ 3 then none
    else
      match parts.map trimS with
      | [action, key, value] =>
        if (action = "ADD" ∨ action = "UPDATE") ∧ key ≠ "" ∧ value ≠ "" then
          some (key, value)
        else none
      | _ => none

/-- C9 (confirmed): the parse never fails and never yields a partial
record.  It returns `none` on an output that trims to the empty string, on
the `null` sentinel, when there is no `::` delimiter, when the `::` split
does not have exactly three parts, and when the first part is not a
recognized action; and whenever it does return a record, the trimmed split
was exactly `[action, key, value]` with `action ∈ {ADD, UPDATE}` and a
non-empty key and value. -/
theorem extractMemory_strict_parse :
    (∀ raw : String, trimS raw = "" → extractMemoryParse raw = none) ∧
    (∀ raw : String, trimS raw = "null" → extractMemoryParse raw = none) ∧
    (∀ raw : String, containsSub (trimS raw) "::" = false →
       extractMemoryParse raw = none) ∧
    (∀ raw : String, (jsSplitOnColons (trimS raw)).length ≠ 3 →
       extractMemoryParse raw = none) ∧
    (∀ (raw action key value : String),
       (jsSplitOnColons (trimS raw)).map trimS = [action, key, value] →
       action ≠ "ADD" → action ≠ "UPDATE" → extractMemoryParse raw = none) ∧
    (∀ (raw key value : String), extractMemoryParse raw = some (key, value) →
       ∃ action : String,
         (jsSplitOnColons (trimS raw)).map trimS = [action, key, value] ∧
         (action = "ADD" ∨ action = "UPDATE") ∧ key ≠ "" ∧ value ≠ "") := by
  refine ⟨?_, ?_, ?_, ?_, ?_, ?_⟩
  · intro raw h
    unfold extractMemoryParse
    dsimp only
    rw [if_pos (Or.inl h)]
  · intro raw h
    unfold extractMemoryParse
    dsimp only
    rw [if_pos (Or.inr (Or.inl h))]
  · intro raw h
    unfold extractMemoryParse
    dsimp only
    rw [if_pos (Or.inr (Or.inr h))]
  · intro raw h4
    unfold extractMemoryParse
    dsimp only
    split <;> simp [h4]
  · intro raw action key value hmap ha1 ha2
    unfold extractMemoryParse
    dsimp only
    split
    · rfl
    · have hlen : ¬ ((jsSplitOnColons (trimS raw)).length ≠ 3) := by
        have hl := congrArg List.length hmap
        simp at hl
        omega
      rw [if_neg hlen, hmap]
      show (if (action = "ADD" ∨ action = "UPDATE") ∧ key ≠ "" ∧ value ≠ "" then
              some (key, value) else none) = none
      rw [if_neg (by rintro ⟨ha, -⟩; rcases ha with h | h; exacts [ha1 h, ha2 h])]
  · intro raw key value hmain
    unfold extractMemoryParse at hmain
    dsimp only at hmain
    split at hmain
    · simp at hmain
    · split at hmain
      · simp at hmain
      · split at hmain
        · rename_i action key0 value0 heq
          split at hmain
          · rename_i hcond
            rw [Option.some.injEq, Prod.mk.injEq] at hmain
            obtain ⟨hk, hv⟩ := hmain
            subst hk
            subst hv
            exact ⟨action, heq, hcond.1, hcond.2.1, hcond.2.2⟩
          · simp at hmain
        · simp at hmain

/-- Witness for C9: the `null` sentinel parses to `none`, and the record
case at the concrete reply `"ADD::name::Rob"`. -/
theorem extractMemory_strict_parse_witness :
    extractMemoryParse "null" = none ∧
    (∃ action : String,
      (jsSplitOnColons (trimS "ADD::name::Rob")).map trimS =
        [action, "name", "Rob"] ∧
      (action = "ADD" ∨ action = "UPDATE") ∧ "name" ≠ "" ∧ "Rob" ≠ "") :=
  ⟨extractMemory_strict_parse.2.1 "null" (by decide),
   extractMemory_strict_parse.2.2.2.2.2 "ADD::name::Rob" "name" "Rob" (by decide)⟩

end Wabot
